import Mathlib

/-!
Verification of the coild allocation/release engine (coild/ip.go), as a
shallow embedding: each handler is a pure function of the request input and
of the results the backing store / routing layer return during that request.
-/

namespace Coil

/-- IP address, modelled as a natural number (the integer value of its bytes). -/
abbrev IP := Nat

/-- Model of Go's net.IPNet: a CIDR block given by a base address and the
number of leading mask bits. -/
structure IPNet where
  addr : Nat
  maskLen : Nat
deriving DecidableEq

/-- Model of (net.IPNet).Contains: an address is in a block iff it agrees
with the block's base address on the masked high bits. -/
def IPNet.contains (b : IPNet) (ip : IP) : Bool :=
  ip / 2 ^ (32 - b.maskLen) == b.addr / 2 ^ (32 - b.maskLen)

/-- Errors the handlers inspect: model.ErrNotFound and coild.ErrNotFound
(merged, the handlers treat each uniformly where it can occur),
model.ErrBlockIsFull, model.ErrOutOfBlocks, model.ErrModRevDiffers, the
ad-hoc orphaned-IP-address error, and any other infrastructure error,
tagged by a numeric code. -/
inductive Err where
  | notFound
  | blockIsFull
  | outOfBlocks
  | modRevDiffers
  | orphaned
  | infra (code : Nat)
deriving DecidableEq

/-- Observable HTTP response of a handler. ok models renderJSON of an
addressInfo with status 200, where address none stands for the empty
address string; badRequest, conflict and notFoundErr model renderError
with BadRequest / APIErrConflict / APIErrNotFound; internalError models
renderError with InternalServerError(err); apiError models renderError
with an explicit APIError literal (status, message, wrapped error). -/
inductive Response where
  | ok (address : Option IP)
  | badRequest (msg : String)
  | conflict
  | notFoundErr
  | internalError (e : Err)
  | apiError (status : Nat) (message : String) (e : Err)
deriving DecidableEq

/-- Store and routing oracle for one handleNewIP request: the results the
collaborators return during this request. getAllocated is the result of
getAllocatedIP for the request's containerID (its body lives outside this
file's source; the handler only branches on its result). getMyBlocks maps a
pool name to the node's owned blocks (a missing pool gives the empty list,
like a Go nil-slice map lookup). allocateIP is a function of the block: an
execution in which the store answers each block consistently within the
request. acquire lists the results successive AcquireBlock calls would
return; the pool owns finitely many free blocks, so once the list is
exhausted the store answers ErrOutOfBlocks. route models addBlockRouting,
none meaning success. -/
structure AllocDB where
  getPool : Except Err Unit
  getAllocated : Except Err IP
  getMyBlocks : Except Err (String → List IPNet)
  allocateIP : IPNet → Except Err IP
  acquire : List (Except Err IPNet)
  route : IPNet → Option Err

/-- Model of Server.determinePoolName: a GetPool hit returns the namespace
itself as pool name, ErrNotFound falls back to the pool named default, any
other error propagates to the caller. -/
def determinePoolName (getPoolRes : Except Err Unit) (podNS : String) :
    Except Err String :=
  match getPoolRes with
  | .ok _ => .ok podNS
  | .error .notFound => .ok "default"
  | .error e => .error e

/-- Result of one scan of the block list. -/
inductive ScanResult where
  | success (b : IPNet) (ip : IP)
  | fatal (e : Err)
  | allFull
deriving DecidableEq

/-- The inner for-loop of handleNewIP over the block list: ErrBlockIsFull
skips to the next block, any other error aborts the scan, success yields
the address together with the block it was allocated from. -/
def scanBlocks (db : AllocDB) : List IPNet → ScanResult
  | [] => .allFull
  | b :: rest =>
    match db.allocateIP b with
    | .error .blockIsFull => scanBlocks db rest
    | .error e => .fatal e
    | .ok ip => .success b ip

/-- The blocks one scan invokes AllocateIP on, in order (effect log). -/
def scanCalls (db : AllocDB) : List IPNet → List IPNet
  | [] => []
  | b :: rest =>
    match db.allocateIP b with
    | .error .blockIsFull => b :: scanCalls db rest
    | _ => [b]

/-- Observable outcome of one handleNewIP request: the HTTP response plus
an effect log — how many AcquireBlock calls were made, which blocks
AllocateIP was invoked on (in order), and the final value of the local
block list bl at the point the handler returned. -/
structure AllocOutcome where
  response : Response
  acquisitions : Nat
  allocCalls : List IPNet
  finalBlocks : List IPNet
deriving DecidableEq

/-- The RETRY loop of handleNewIP (the goto-RETRY control flow): scan the
block list; if every block is full, call AcquireBlock; ErrOutOfBlocks
renders the 503 APIError, pool ErrNotFound renders the 500 APIError, other
errors render InternalServerError; on success the route is installed unless
dryRun (a route failure renders InternalServerError before the block list
is touched), the new block is prepended to the front of bl, and the scan
restarts. -/
def allocLoop (db : AllocDB) (dryRun : Bool) (poolName : String)
    (bl : List IPNet) : List (Except Err IPNet) → AllocOutcome
  | [] =>
    match scanBlocks db bl with
    | .success _ ip => ⟨.ok (some ip), 0, scanCalls db bl, bl⟩
    | .fatal e => ⟨.internalError e, 0, scanCalls db bl, bl⟩
    | .allFull =>
      ⟨.apiError 503 ("no more blocks in pool " ++ poolName) Err.outOfBlocks,
        1, scanCalls db bl, bl⟩
  | r :: rest =>
    match scanBlocks db bl with
    | .success _ ip => ⟨.ok (some ip), 0, scanCalls db bl, bl⟩
    | .fatal e => ⟨.internalError e, 0, scanCalls db bl, bl⟩
    | .allFull =>
      match r with
      | Except.error Err.outOfBlocks =>
        ⟨.apiError 503 ("no more blocks in pool " ++ poolName)
          Err.outOfBlocks, 1, scanCalls db bl, bl⟩
      | Except.error Err.notFound =>
        ⟨.apiError 500 ("address pool is not found " ++ poolName)
          Err.notFound, 1, scanCalls db bl, bl⟩
      | Except.error e => ⟨.internalError e, 1, scanCalls db bl, bl⟩
      | Except.ok block =>
        match (if dryRun then none else db.route block) with
        | some e => ⟨.internalError e, 1, scanCalls db bl, bl⟩
        | none =>
          let out := allocLoop db dryRun poolName (block :: bl) rest
          ⟨out.response, out.acquisitions + 1,
            scanCalls db bl ++ out.allocCalls, out.finalBlocks⟩

/-- Decoded request body of handleNewIP. -/
structure NewIPInput where
  podNS : String
  podName : String
  containerID : String

/-- One allocation request (handleNewIP), modelled from after request
decoding: field validation, pool resolution, duplicate-container conflict
check on the getAllocatedIP result, block-list load via GetMyBlocks indexed
by the resolved pool, then the RETRY loop. -/
def handleNewIP (db : AllocDB) (dryRun : Bool) (input : NewIPInput) :
    AllocOutcome :=
  if input.podNS.length = 0 then ⟨.badRequest "no pod namespace", 0, [], []⟩
  else if input.podName.length = 0 then ⟨.badRequest "no pod name", 0, [], []⟩
  else if input.containerID.length = 0 then
    ⟨.badRequest "no container-id", 0, [], []⟩
  else
    match determinePoolName db.getPool input.podNS with
    | .error e => ⟨.internalError e, 0, [], []⟩
    | .ok poolName =>
      match db.getAllocated with
      | .ok _ => ⟨.conflict, 0, [], []⟩
      | .error e =>
        if e = .notFound then
          match db.getMyBlocks with
          | .error e2 => ⟨.internalError e2, 0, [], []⟩
          | .ok blocks =>
            allocLoop db dryRun poolName (blocks poolName) db.acquire
        else ⟨.internalError e, 0, [], []⟩

/-- Store oracle for one handleIPDelete request (the store-backed release
path): getMyBlocks is the block-set snapshot taken first (the per-pool
lists, as ranged over by the OUTER loop), getAllocated is the
getAllocatedIP result for the request's containerID, getAddressInfo gives
the assignment's recorded containerID and its revision (modRev), and freeIP
is the result of the conditional FreeIP (none meaning success). -/
structure DelDB where
  getMyBlocks : Except Err (List (List IPNet))
  getAllocated : Except Err IP
  getAddressInfo : IP → Except Err (String × Nat)
  freeIP : IPNet → IP → Nat → Option Err

/-- The OUTER loop of handleIPDelete: the first block in the snapshot whose
CIDR contains the address, scanning each per-pool list in turn. -/
def findBlock (blockLists : List (List IPNet)) (ip : IP) : Option IPNet :=
  match blockLists with
  | [] => none
  | bl :: rest =>
    match bl.find? (fun b => b.contains ip) with
    | some b => some b
    | none => findBlock rest ip

/-- Observable outcome of one store-backed handleIPDelete request: the HTTP
response, plus whether FreeIP was invoked. -/
structure DeleteOutcome where
  response : Response
  freeCalled : Bool
deriving DecidableEq

/-- Model of handleIPDelete (the store-backed release path): snapshot the
block lists first, look up the container's address (ErrNotFound renders the
empty-address 200 response), locate the owning block (none found is the
orphaned-IP-address internal error), re-read the assignment with its
revision (ErrNotFound again renders the empty-address 200 response), treat
a containerID mismatch as already released, then FreeIP with the revision;
ErrModRevDiffers is ignored and the freed address is rendered with
status 200, any other FreeIP error renders InternalServerError. -/
def handleIPDelete (db : DelDB) (containerID : String) : DeleteOutcome :=
  match db.getMyBlocks with
  | .error e => ⟨.internalError e, false⟩
  | .ok blockLists =>
    match db.getAllocated with
    | .error .notFound => ⟨.ok none, false⟩
    | .error e => ⟨.internalError e, false⟩
    | .ok ip =>
      match findBlock blockLists ip with
      | none => ⟨.internalError .orphaned, false⟩
      | some block =>
        match db.getAddressInfo ip with
        | .error .notFound => ⟨.ok none, false⟩
        | .error e => ⟨.internalError e, false⟩
        | .ok (cid, modRev) =>
          if cid = containerID then
            match db.freeIP block ip modRev with
            | some .modRevDiffers => ⟨.ok (some ip), true⟩
            | some e => ⟨.internalError e, true⟩
            | none => ⟨.ok (some ip), true⟩
          else ⟨.ok none, false⟩

/-- Store oracle for the map-backed (legacy) handleIPDelete: only the
unconditional FreeIP result is consulted (none meaning success). -/
structure MapDelDB where
  freeIP : IPNet → IP → Option Err

/-- In-process server state touched by the map-backed handlers: the podIPs
assignment map (containerID, or the legacy namespace/pod key, to address)
modelled as an association list, and the per-pool addressBlocks map. -/
structure ServerState where
  podIPs : List (String × IP)
  addressBlocks : List (String × List IPNet)
deriving DecidableEq

/-- Observable outcome of one map-backed handleIPDelete request: the HTTP
response and the server state at return. -/
structure MapDeleteOutcome where
  response : Response
  state : ServerState
deriving DecidableEq

/-- Shared tail of the map-backed handleIPDelete once the map key and its
address are resolved: locate the owning block over all pools (none found is
the orphaned-IP-address internal error), call FreeIP (a failure renders
InternalServerError and leaves every piece of state unchanged), and only
then delete the map entry and render the freed address with status 200. -/
def freeAndDelete (db : MapDelDB) (s : ServerState) (key : String)
    (ip : IP) : MapDeleteOutcome :=
  match findBlock (s.addressBlocks.map Prod.snd) ip with
  | none => ⟨.internalError .orphaned, s⟩
  | some block =>
    match db.freeIP block ip with
    | some e => ⟨.internalError e, s⟩
    | none =>
      ⟨.ok (some ip),
        ⟨s.podIPs.filter (fun p => p.1 != key), s.addressBlocks⟩⟩

/-- Model of the map-backed (legacy) handleIPDelete: the podIPs map is
keyed by containerID, with a fallback legacy key namespace/pod joined by a
slash; a miss on both keys renders APIErrNotFound. -/
def handleIPDeleteMap (db : MapDelDB) (s : ServerState)
    (ns pod containerID : String) : MapDeleteOutcome :=
  match s.podIPs.lookup containerID with
  | some ip => freeAndDelete db s containerID ip
  | none =>
    match s.podIPs.lookup (ns ++ "/" ++ pod) with
    | some ip => freeAndDelete db s (ns ++ "/" ++ pod) ip
    | none => ⟨.notFoundErr, s⟩

/-! Helper lemmas about the scan and the retry loop. -/

theorem scanBlocks_allFull (db : AllocDB) (bl : List IPNet)
    (h : ∀ b ∈ bl, db.allocateIP b = .error .blockIsFull) :
    scanBlocks db bl = .allFull := by
  induction bl with
  | nil => rfl
  | cons b rest ih =>
    have hb := h b (List.mem_cons_self b rest)
    have hrest : ∀ x ∈ rest, db.allocateIP x = .error .blockIsFull :=
      fun x hx => h x (List.mem_cons_of_mem b hx)
    simp [scanBlocks, hb, ih hrest]

theorem scanCalls_allFull (db : AllocDB) (bl : List IPNet)
    (h : ∀ b ∈ bl, db.allocateIP b = .error .blockIsFull) :
    scanCalls db bl = bl := by
  induction bl with
  | nil => rfl
  | cons b rest ih =>
    have hb := h b (List.mem_cons_self b rest)
    have hrest : ∀ x ∈ rest, db.allocateIP x = .error .blockIsFull :=
      fun x hx => h x (List.mem_cons_of_mem b hx)
    simp [scanCalls, hb, ih hrest]

theorem allocLoop_exhaust (db : AllocDB) (dryRun : Bool) (poolName : String) :
    ∀ (acq : List (Except Err IPNet)) (bl : List IPNet),
    (∀ b ∈ bl, db.allocateIP b = .error .blockIsFull) →
    (∀ r ∈ acq, ∃ B, r = .ok B ∧ db.allocateIP B = .error .blockIsFull ∧
      db.route B = none) →
    (allocLoop db dryRun poolName bl acq).response =
      .apiError 503 ("no more blocks in pool " ++ poolName) Err.outOfBlocks ∧
    (allocLoop db dryRun poolName bl acq).acquisitions = acq.length + 1 ∧
    (allocLoop db dryRun poolName bl acq).finalBlocks.length =
      bl.length + acq.length := by
  intro acq
  induction acq with
  | nil =>
    intro bl hfull _
    simp [allocLoop, scanBlocks_allFull db bl hfull]
  | cons r rest ih =>
    intro bl hfull hacq
    obtain ⟨B, rfl, hBfull, hBroute⟩ := hacq r (List.mem_cons_self r rest)
    have hrest : ∀ x ∈ rest, ∃ B, x = .ok B ∧
        db.allocateIP B = .error .blockIsFull ∧ db.route B = none :=
      fun x hx => hacq x (List.mem_cons_of_mem _ hx)
    have hfull2 : ∀ b ∈ B :: bl, db.allocateIP b = .error .blockIsFull := by
      intro b hb
      rcases List.mem_cons.mp hb with rfl | hb
      · exact hBfull
      · exact hfull b hb
    have hrec := ih (B :: bl) hfull2 hrest
    simp only [allocLoop, scanBlocks_allFull db bl hfull, hBroute, ite_self]
    refine ⟨hrec.1, ?_, ?_⟩
    · simp [hrec.2.1]
    · simp [hrec.2.2]
      omega

theorem scanBlocks_skip (db : AllocDB) (b : IPNet)
    (hb : db.allocateIP b = .error .blockIsFull) :
    ∀ (x y : List IPNet),
    scanBlocks db (x ++ b :: y) = scanBlocks db (x ++ y) := by
  intro x y
  induction x with
  | nil => simp [scanBlocks, hb]
  | cons c rest ih =>
    simp only [List.cons_append, scanBlocks, List.append_eq]
    rw [ih]

theorem allocLoop_skip (db : AllocDB) (dryRun : Bool) (poolName : String)
    (b : IPNet) (hb : db.allocateIP b = .error .blockIsFull) :
    ∀ (acq : List (Except Err IPNet)) (x y : List IPNet),
    (allocLoop db dryRun poolName (x ++ b :: y) acq).response =
      (allocLoop db dryRun poolName (x ++ y) acq).response := by
  intro acq
  induction acq with
  | nil =>
    intro x y
    have hs := scanBlocks_skip db b hb x y
    cases hxy : scanBlocks db (x ++ y) <;> rw [hxy] at hs <;>
      simp [allocLoop, hs, hxy]
  | cons r rest ih =>
    intro x y
    have hs := scanBlocks_skip db b hb x y
    cases hxy : scanBlocks db (x ++ y) with
    | success bb ip =>
      rw [hxy] at hs
      simp [allocLoop, hs, hxy]
    | fatal e =>
      rw [hxy] at hs
      simp [allocLoop, hs, hxy]
    | allFull =>
      rw [hxy] at hs
      cases r with
      | error e => cases e <;> simp [allocLoop, hs, hxy]
      | ok block =>
        cases hr : (if dryRun then none else db.route block) with
        | some e => simp [allocLoop, hs, hxy, hr]
        | none =>
          have hih := ih (block :: x) y
          simp only [List.cons_append] at hih
          simp [allocLoop, hs, hxy, hr, hih]

theorem allocLoop_success (db : AllocDB) (dryRun : Bool) (poolName : String)
    (bl : List IPNet) (b : IPNet) (ip : IP)
    (h : scanBlocks db bl = .success b ip) :
    ∀ acq, allocLoop db dryRun poolName bl acq =
      ⟨.ok (some ip), 0, scanCalls db bl, bl⟩ := by
  intro acq
  cases acq <;> simp [allocLoop, h]

theorem allocLoop_fatal (db : AllocDB) (dryRun : Bool) (poolName : String)
    (bl : List IPNet) (e : Err) (h : scanBlocks db bl = .fatal e) :
    ∀ acq, allocLoop db dryRun poolName bl acq =
      ⟨.internalError e, 0, scanCalls db bl, bl⟩ := by
  intro acq
  cases acq <;> simp [allocLoop, h]

theorem scanBlocks_fatal (db : AllocDB) (b : IPNet) (rest : List IPNet)
    (e : Err) (hb : db.allocateIP b = .error e) (he : e ≠ .blockIsFull) :
    scanBlocks db (b :: rest) = .fatal e := by
  cases e <;> simp [scanBlocks, hb]
  exact absurd rfl he

theorem findBlock_eq_none (blockLists : List (List IPNet)) (ip : IP)
    (h : ∀ bl ∈ blockLists, ∀ b ∈ bl, b.contains ip = false) :
    findBlock blockLists ip = none := by
  induction blockLists with
  | nil => rfl
  | cons bl rest ih =>
    have hbl : bl.find? (fun b => b.contains ip) = none := by
      apply List.find?_eq_none.mpr
      intro x hx
      simp [h bl (List.mem_cons_self bl rest) x hx]
    have hrest : ∀ l ∈ rest, ∀ b ∈ l, b.contains ip = false :=
      fun l hl => h l (List.mem_cons_of_mem bl hl)
    simp [findBlock, hbl, ih hrest]

/-! Claim theorems. -/

/-- C7: pool resolution returns the namespace's own name when GetPool finds
a pool under that exact namespace, returns the pool name default when
GetPool reports NotFound, and propagates any other GetPool error to the
caller instead of defaulting. -/
theorem pool_fallback (podNS : String) (e : Err) (he : e ≠ .notFound) :
    determinePoolName (.ok ()) podNS = .ok podNS ∧
    determinePoolName (.error .notFound) podNS = .ok "default" ∧
    determinePoolName (.error e) podNS = .error e := by
  refine ⟨rfl, rfl, ?_⟩
  cases e <;> simp [determinePoolName]
  exact absurd rfl he

/-- C8: during the allocate scan over the block set, a BlockIsFull result
from AllocateIP on one block makes the scan continue with the next block
and leaves the overall response unchanged (it is never surfaced to the
caller), while any other AllocateIP error aborts the whole allocation
with an InternalServerError carrying that error. -/
theorem blockfull_skip (db : AllocDB) (dryRun : Bool) (poolName : String)
    (b : IPNet) (rest : List IPNet) (acq : List (Except Err IPNet))
    (e : Err) :
    (db.allocateIP b = .error .blockIsFull →
      scanBlocks db (b :: rest) = scanBlocks db rest ∧
      (allocLoop db dryRun poolName (b :: rest) acq).response =
        (allocLoop db dryRun poolName rest acq).response) ∧
    (db.allocateIP b = .error e → e ≠ .blockIsFull →
      (allocLoop db dryRun poolName (b :: rest) acq).response =
        .internalError e) := by
  constructor
  · intro hb
    constructor
    · simp [scanBlocks, hb]
    · have h := allocLoop_skip db dryRun poolName b hb acq [] rest
      simpa using h
  · intro hb he
    rw [allocLoop_fatal db dryRun poolName (b :: rest) e
      (scanBlocks_fatal db b rest e hb he) acq]

/-- C5: an allocate call whose containerID already has a live address
assignment (the getAllocatedIP oracle returns an address) yields the
conflict error, with no AllocateIP call, no AcquireBlock call, and no
block-list change. -/
theorem conflict_rejection (db : AllocDB) (dryRun : Bool)
    (input : NewIPInput) (poolName : String) (ip : IP)
    (h0 : input.podNS.length ≠ 0) (h1 : input.podName.length ≠ 0)
    (h2 : input.containerID.length ≠ 0)
    (hp : determinePoolName db.getPool input.podNS = .ok poolName)
    (ha : db.getAllocated = .ok ip) :
    handleNewIP db dryRun input = ⟨.conflict, 0, [], []⟩ := by
  simp [handleNewIP, h0, h1, h2, hp, ha]

/-- C1: when every block currently in the pool's block set answers
BlockIsFull and AcquireBlock then succeeds with a block that yields an
address, exactly one block acquisition is performed, the new block is
prepended to the front of the block list, the rescan tries the new block
first (the AllocateIP call log is the original blocks followed by the new
block), and the returned address is the one allocated from the newly
acquired block. -/
theorem escalation_order (db : AllocDB) (dryRun : Bool) (input : NewIPInput)
    (poolName : String) (m : String → List IPNet) (B : IPNet)
    (rest : List (Except Err IPNet)) (ip : IP)
    (h0 : input.podNS.length ≠ 0) (h1 : input.podName.length ≠ 0)
    (h2 : input.containerID.length ≠ 0)
    (hp : determinePoolName db.getPool input.podNS = .ok poolName)
    (ha : db.getAllocated = .error .notFound)
    (hm : db.getMyBlocks = .ok m)
    (hfull : ∀ b ∈ m poolName, db.allocateIP b = .error .blockIsFull)
    (hacq : db.acquire = .ok B :: rest)
    (hB : db.allocateIP B = .ok ip)
    (hroute : dryRun = true ∨ db.route B = none) :
    handleNewIP db dryRun input =
      ⟨.ok (some ip), 1, m poolName ++ [B], B :: m poolName⟩ := by
  have hscan := scanBlocks_allFull db (m poolName) hfull
  have hcalls := scanCalls_allFull db (m poolName) hfull
  have hscan2 : scanBlocks db (B :: m poolName) = .success B ip := by
    simp [scanBlocks, hB]
  have hcalls2 : scanCalls db (B :: m poolName) = [B] := by
    simp [scanCalls, hB]
  have hroute2 : (if dryRun then none else db.route B) = none := by
    rcases hroute with rfl | hr
    · rfl
    · simp [hr]
  have hrec := allocLoop_success db dryRun poolName (B :: m poolName) B ip
    hscan2 rest
  simp [handleNewIP, h0, h1, h2, hp, ha, hm, hacq, allocLoop, hscan,
    hroute2, hrec, hcalls, hcalls2]

/-- C2: the allocate retry loop terminates: against a block set in which
every owned block is full and a pool whose remaining acquirable blocks are
all full (with routes installing fine), the handler answers the
ServiceUnavailable (503) APIError once the pool is exhausted, having made
one AcquireBlock call per remaining pool block plus the final one that
reports OutOfBlocks, and having grown the block list by exactly one block
per successful acquisition. -/
theorem exhaustion_terminality (db : AllocDB) (dryRun : Bool)
    (input : NewIPInput) (poolName : String) (m : String → List IPNet)
    (h0 : input.podNS.length ≠ 0) (h1 : input.podName.length ≠ 0)
    (h2 : input.containerID.length ≠ 0)
    (hp : determinePoolName db.getPool input.podNS = .ok poolName)
    (ha : db.getAllocated = .error .notFound)
    (hm : db.getMyBlocks = .ok m)
    (hfull : ∀ b ∈ m poolName, db.allocateIP b = .error .blockIsFull)
    (hacq : ∀ r ∈ db.acquire, ∃ B, r = .ok B ∧
      db.allocateIP B = .error .blockIsFull ∧ db.route B = none) :
    (handleNewIP db dryRun input).response =
      .apiError 503 ("no more blocks in pool " ++ poolName)
        Err.outOfBlocks ∧
    (handleNewIP db dryRun input).acquisitions = db.acquire.length + 1 ∧
    (handleNewIP db dryRun input).finalBlocks.length =
      (m poolName).length + db.acquire.length := by
  have hloop := allocLoop_exhaust db dryRun poolName db.acquire (m poolName)
    hfull hacq
  simpa [handleNewIP, h0, h1, h2, hp, ha, hm] using hloop

/-- C9: in non-dry-run mode, when the scan finds every owned block full,
AcquireBlock succeeds with a block B, and installing the route for B fails,
the handler returns InternalServerError with the route error, exactly one
acquisition was made, the block list is unchanged (B is not prepended), and
AllocateIP was only ever invoked on the original blocks — in particular
never on B when B is not among them. -/
theorem route_failure_frame (db : AllocDB) (input : NewIPInput)
    (poolName : String) (m : String → List IPNet) (B : IPNet)
    (rest : List (Except Err IPNet)) (e : Err)
    (h0 : input.podNS.length ≠ 0) (h1 : input.podName.length ≠ 0)
    (h2 : input.containerID.length ≠ 0)
    (hp : determinePoolName db.getPool input.podNS = .ok poolName)
    (ha : db.getAllocated = .error .notFound)
    (hm : db.getMyBlocks = .ok m)
    (hfull : ∀ b ∈ m poolName, db.allocateIP b = .error .blockIsFull)
    (hacq : db.acquire = .ok B :: rest)
    (hroute : db.route B = some e) :
    handleNewIP db false input =
      ⟨.internalError e, 1, m poolName, m poolName⟩ ∧
    (B ∉ m poolName → B ∉ (handleNewIP db false input).allocCalls) := by
  have hscan := scanBlocks_allFull db (m poolName) hfull
  have hcalls := scanCalls_allFull db (m poolName) hfull
  have hmain : handleNewIP db false input =
      ⟨.internalError e, 1, m poolName, m poolName⟩ := by
    simp [handleNewIP, h0, h1, h2, hp, ha, hm, hacq, allocLoop, hscan,
      hroute, hcalls]
  refine ⟨hmain, ?_⟩
  intro hnotin
  rw [hmain]
  exact hnotin

/-- C3 (amended): in the store-backed release path, a release call whose
containerID has no live address assignment (the getAllocatedIP oracle
reports NotFound) succeeds with the empty-address 200 response — never the
not-found error — and FreeIP is not invoked. The legacy map-backed release
path behaves differently there; see the counterexample below. -/
theorem release_idempotent (db : DelDB) (containerID : String)
    (blockLists : List (List IPNet))
    (hm : db.getMyBlocks = .ok blockLists)
    (ha : db.getAllocated = .error .notFound) :
    handleIPDelete db containerID = ⟨.ok none, false⟩ := by
  simp [handleIPDelete, hm, ha]

/-- C4: when FreeIP is invoked with the revision read earlier and fails
with ModRevDiffers, the release is still reported as the 200 response
carrying the freed address; any other FreeIP error is surfaced as
InternalServerError. -/
theorem release_modrev_benign (db : DelDB) (containerID : String)
    (blockLists : List (List IPNet)) (ip : IP) (block : IPNet)
    (modRev : Nat)
    (hm : db.getMyBlocks = .ok blockLists)
    (ha : db.getAllocated = .ok ip)
    (hb : findBlock blockLists ip = some block)
    (hi : db.getAddressInfo ip = .ok (containerID, modRev)) :
    (db.freeIP block ip modRev = some .modRevDiffers →
      handleIPDelete db containerID = ⟨.ok (some ip), true⟩) ∧
    (∀ e, db.freeIP block ip modRev = some e → e ≠ .modRevDiffers →
      handleIPDelete db containerID = ⟨.internalError e, true⟩) := by
  constructor
  · intro hfree
    simp [handleIPDelete, hm, ha, hb, hi, hfree]
  · intro e hfree he
    cases e <;> simp [handleIPDelete, hm, ha, hb, hi, hfree]
    exact absurd rfl he

/-- C6: a release call with a live assignment whose address is contained in
none of the blocks of the node's block-set snapshot fails with the
orphaned-IP-address InternalServerError, and FreeIP is not invoked. -/
theorem orphan_detection (db : DelDB) (containerID : String)
    (blockLists : List (List IPNet)) (ip : IP)
    (hm : db.getMyBlocks = .ok blockLists)
    (ha : db.getAllocated = .ok ip)
    (hno : ∀ bl ∈ blockLists, ∀ b ∈ bl, b.contains ip = false) :
    handleIPDelete db containerID = ⟨.internalError .orphaned, false⟩ := by
  simp [handleIPDelete, hm, ha, findBlock_eq_none blockLists ip hno]

/-- C10: in the map-backed release path, when the containerID key resolves
to an address owned by some block, a FreeIP failure yields
InternalServerError with the podIPs map and the block set left exactly
unchanged, while on FreeIP success the entry is deleted from podIPs (the
block set still unchanged) and the freed address is rendered. -/
theorem map_release_frame (db : MapDelDB) (s : ServerState)
    (ns pod containerID : String) (ip : IP) (block : IPNet)
    (hk : s.podIPs.lookup containerID = some ip)
    (hb : findBlock (s.addressBlocks.map Prod.snd) ip = some block) :
    (∀ e, db.freeIP block ip = some e →
      handleIPDeleteMap db s ns pod containerID =
        ⟨.internalError e, s⟩) ∧
    (db.freeIP block ip = none →
      handleIPDeleteMap db s ns pod containerID =
        ⟨.ok (some ip),
          ⟨s.podIPs.filter (fun p => p.1 != containerID),
            s.addressBlocks⟩⟩) := by
  constructor
  · intro e hfree
    simp [handleIPDeleteMap, freeAndDelete, hk, hb, hfree]
  · intro hfree
    simp [handleIPDeleteMap, freeAndDelete, hk, hb, hfree]

/-! Concrete witness data: two disjoint /24 blocks and small oracles. -/

/-- Block 0.0.0.0/24 of the witness pool. -/
def blkA : IPNet := ⟨0, 24⟩

/-- Block 0.0.1.0/24 of the witness pool. -/
def blkB : IPNet := ⟨256, 24⟩

/-- Witness oracle for the escalation-order run: the one owned block is
full, the pool hands out blkB, and blkB yields address 300. -/
def dbC1 : AllocDB :=
  { getPool := .ok ()
    getAllocated := .error .notFound
    getMyBlocks := .ok fun _ => [blkA]
    allocateIP := fun b => if b = blkB then .ok 300 else .error .blockIsFull
    acquire := [.ok blkB]
    route := fun _ => none }

/-- Witness of the escalation-order theorem at a concrete run. -/
theorem escalation_order_witness :
    handleNewIP dbC1 false ⟨"ns", "pod", "cid"⟩ =
      ⟨.ok (some 300), 1, [blkA, blkB], [blkB, blkA]⟩ :=
  escalation_order dbC1 false ⟨"ns", "pod", "cid"⟩ "ns" (fun _ => [blkA])
    blkB [] 300 (by decide) (by decide) (by decide) rfl rfl rfl
    (by intro b hb; fin_cases hb; rfl) rfl rfl (Or.inr rfl)

/-- Witness oracle for the exhaustion run: every block everywhere is full
and the pool has a single remaining block. -/
def dbC2 : AllocDB :=
  { getPool := .error .notFound
    getAllocated := .error .notFound
    getMyBlocks := .ok fun _ => [blkA]
    allocateIP := fun _ => .error .blockIsFull
    acquire := [.ok blkB]
    route := fun _ => none }

/-- Witness of the exhaustion-terminality theorem at a concrete run. -/
theorem exhaustion_terminality_witness :
    (handleNewIP dbC2 false ⟨"ns", "pod", "cid"⟩).response =
      .apiError 503 ("no more blocks in pool " ++ "default")
        Err.outOfBlocks ∧
    (handleNewIP dbC2 false ⟨"ns", "pod", "cid"⟩).acquisitions =
      ([Except.ok blkB] : List (Except Err IPNet)).length + 1 ∧
    (handleNewIP dbC2 false ⟨"ns", "pod", "cid"⟩).finalBlocks.length =
      ([blkA] : List IPNet).length + ([Except.ok blkB] :
        List (Except Err IPNet)).length :=
  exhaustion_terminality dbC2 false ⟨"ns", "pod", "cid"⟩ "default"
    (fun _ => [blkA]) (by decide) (by decide) (by decide) rfl rfl rfl
    (by intro b hb; fin_cases hb; rfl)
    (by intro r hr; fin_cases hr; exact ⟨blkB, rfl, rfl, rfl⟩)

/-- Witness oracle for the conflict run: the containerID already holds
address 5. -/
def dbC5 : AllocDB :=
  { getPool := .ok ()
    getAllocated := .ok 5
    getMyBlocks := .ok fun _ => []
    allocateIP := fun _ => .error .blockIsFull
    acquire := []
    route := fun _ => none }

/-- Witness of the conflict-rejection theorem at a concrete run. -/
theorem conflict_rejection_witness :
    handleNewIP dbC5 false ⟨"ns", "pod", "cid"⟩ = ⟨.conflict, 0, [], []⟩ :=
  conflict_rejection dbC5 false ⟨"ns", "pod", "cid"⟩ "ns" 5
    (by decide) (by decide) (by decide) rfl rfl

/-- Witness of the pool-fallback theorem at a concrete namespace and a
concrete non-NotFound error. -/
theorem pool_fallback_witness :
    determinePoolName (.ok ()) "kube-system" = .ok "kube-system" ∧
    determinePoolName (.error .notFound) "kube-system" = .ok "default" ∧
    determinePoolName (.error (.infra 0)) "kube-system" =
      .error (.infra 0) :=
  pool_fallback "kube-system" (.infra 0) (by decide)

/-- Witness oracle for the scan-skip run: blkA is full, every other block
answers an infrastructure error. -/
def dbC8 : AllocDB :=
  { getPool := .ok ()
    getAllocated := .error .notFound
    getMyBlocks := .ok fun _ => []
    allocateIP := fun b =>
      if b = blkA then .error .blockIsFull else .error (.infra 3)
    acquire := []
    route := fun _ => none }

/-- Witness of the BlockIsFull-skip theorem at concrete runs: the full
block is skipped without changing the response, and a non-BlockIsFull scan
error surfaces as InternalServerError. -/
theorem blockfull_skip_witness :
    (scanBlocks dbC8 [blkA, blkB] = scanBlocks dbC8 [blkB] ∧
      (allocLoop dbC8 true "default" [blkA, blkB] []).response =
        (allocLoop dbC8 true "default" [blkB] []).response) ∧
    (allocLoop dbC8 true "default" [blkB] []).response =
      .internalError (.infra 3) :=
  ⟨(blockfull_skip dbC8 true "default" blkA [blkB] [] (.infra 3)).1 rfl,
    (blockfull_skip dbC8 true "default" blkB [] [] (.infra 3)).2 rfl
      (by decide)⟩

/-- Witness oracle for the route-failure run: the owned block is full, the
pool hands out blkB, and installing its route fails. -/
def dbC9 : AllocDB :=
  { getPool := .ok ()
    getAllocated := .error .notFound
    getMyBlocks := .ok fun _ => [blkA]
    allocateIP := fun _ => .error .blockIsFull
    acquire := [.ok blkB]
    route := fun _ => some (.infra 7) }

/-- Witness of the route-failure frame theorem at a concrete run. -/
theorem route_failure_frame_witness :
    handleNewIP dbC9 false ⟨"ns", "pod", "cid"⟩ =
      ⟨.internalError (.infra 7), 1, [blkA], [blkA]⟩ ∧
    blkB ∉ (handleNewIP dbC9 false ⟨"ns", "pod", "cid"⟩).allocCalls := by
  have h := route_failure_frame dbC9 ⟨"ns", "pod", "cid"⟩ "ns"
    (fun _ => [blkA]) blkB [] (.infra 7) (by decide) (by decide) (by decide)
    rfl rfl rfl (by intro b hb; fin_cases hb; rfl) rfl rfl
  exact ⟨h.1, h.2 (by decide)⟩

/-- Witness oracle for the idempotent-release run: no assignment exists for
the containerID. -/
def dbC3 : DelDB :=
  { getMyBlocks := .ok [[blkA]]
    getAllocated := .error .notFound
    getAddressInfo := fun _ => .error .notFound
    freeIP := fun _ _ _ => none }

/-- Witness of the idempotent-release theorem at a concrete run. -/
theorem release_idempotent_witness :
    handleIPDelete dbC3 "cid" = ⟨.ok none, false⟩ :=
  release_idempotent dbC3 "cid" [[blkA]] rfl rfl

/-- Witness oracle for the map-backed never-allocated release run: FreeIP
would succeed, but it is never reached. -/
def dbC3m : MapDelDB := { freeIP := fun _ _ => none }

/-- Witness server state for the map-backed never-allocated release run:
no assignment exists at all. -/
def stC3m : ServerState := ⟨[], []⟩

/-- Counterexample to C3 as stated over every release path: in the legacy
map-backed release path, a containerID with no live assignment (the podIPs
map holds no entry for it, nor for the legacy namespace/pod key) is
answered with the APIErrNotFound error response, not with the empty-address
success the claim requires. -/
theorem release_idempotent_counterexample :
    stC3m.podIPs.lookup "cid" = none ∧
    handleIPDeleteMap dbC3m stC3m "ns" "pod" "cid" =
      ⟨.notFoundErr, stC3m⟩ :=
  ⟨rfl, rfl⟩

/-- Witness oracle for the revision-mismatch run: address 5 lives in blkA
and FreeIP answers ModRevDiffers. -/
def dbC4 : DelDB :=
  { getMyBlocks := .ok [[blkA]]
    getAllocated := .ok 5
    getAddressInfo := fun _ => .ok ("cid", 3)
    freeIP := fun _ _ _ => some .modRevDiffers }

/-- Witness of the revision-mismatch theorem at a concrete run. -/
theorem release_modrev_benign_witness :
    handleIPDelete dbC4 "cid" = ⟨.ok (some 5), true⟩ :=
  (release_modrev_benign dbC4 "cid" [[blkA]] 5 blkA 3 rfl rfl rfl rfl).1 rfl

/-- Witness oracle for the orphan run: address 999 is outside the only
owned block. -/
def dbC6 : DelDB :=
  { getMyBlocks := .ok [[blkA]]
    getAllocated := .ok 999
    getAddressInfo := fun _ => .error .notFound
    freeIP := fun _ _ _ => none }

/-- Witness of the orphan-detection theorem at a concrete run. -/
theorem orphan_detection_witness :
    handleIPDelete dbC6 "cid" = ⟨.internalError .orphaned, false⟩ :=
  orphan_detection dbC6 "cid" [[blkA]] 999 rfl rfl (by decide)

/-- Witness oracle for the map-backed release run: FreeIP fails with an
infrastructure error. -/
def dbC10 : MapDelDB := { freeIP := fun _ _ => some (.infra 9) }

/-- Witness server state for the map-backed release run. -/
def stC10 : ServerState := ⟨[("cid", 5)], [("default", [blkA])]⟩

/-- Witness of the map-backed release frame theorem at a concrete run. -/
theorem map_release_frame_witness :
    handleIPDeleteMap dbC10 stC10 "ns" "pod" "cid" =
      ⟨.internalError (.infra 9), stC10⟩ :=
  (map_release_frame dbC10 stC10 "ns" "pod" "cid" 5 blkA rfl rfl).1
    (.infra 9) rfl

end Coil
